import Mathlib

/-
Shallow embedding of `assistent_bot.py`, an in-memory contact book with
validated phone numbers and birthdays, a name-keyed store, command handlers,
and an upcoming-birthdays scheduler.  Python dates are modelled as
year/month/day triples with CPython's field checks made explicit; Python
exceptions are modelled by an explicit error type threaded through `Except`.
-/

set_option maxHeartbeats 1000000

/-- Python `datetime.date`: a (year, month, day) triple.  Field validity is
tracked separately by `validDate`, mirroring CPython's construction-time
checks. -/
structure PyDate where
  year : Nat
  month : Nat
  day : Nat
deriving DecidableEq, Repr

/-- Gregorian leap-year rule, as in CPython `datetime._is_leap`. -/
def isLeap (y : Nat) : Bool := y % 4 == 0 && (y % 100 != 0 || y % 400 == 0)

/-- Days in a month, as in CPython `datetime._days_in_month` (0 for an
out-of-range month, which the callers below reject). -/
def daysInMonth (y m : Nat) : Nat :=
  if m = 2 then (if isLeap y then 29 else 28)
  else if m = 4 ∨ m = 6 ∨ m = 9 ∨ m = 11 then 30
  else if 1 ≤ m ∧ m ≤ 12 then 31
  else 0

/-- CPython `_check_date_fields`: year in 1..9999, month in 1..12, day within
the month. -/
def validDate (y m d : Nat) : Bool :=
  decide (1 ≤ y) && decide (y ≤ 9999) && decide (1 ≤ m) && decide (m ≤ 12) &&
  decide (1 ≤ d) && decide (d ≤ daysInMonth y m)

/-- Python `date.replace(year := y)` keeping month and day: CPython re-checks
the fields and raises `ValueError` with the corresponding message. -/
def replaceYear (d : PyDate) (y : Nat) : Except String PyDate :=
  if y < 1 ∨ 9999 < y then .error ("year " ++ toString y ++ " is out of range")
  else if d.month < 1 ∨ 12 < d.month then .error "month must be in 1..12"
  else if d.day < 1 ∨ daysInMonth y d.month < d.day then
    .error "day is out of range for month"
  else .ok ⟨y, d.month, d.day⟩

/-- Days in the years strictly before year `y` (proleptic Gregorian), so that
`toOrdinal ⟨1, 1, 1⟩ = 1` as for Python `date.toordinal`. -/
def daysBeforeYear (y : Nat) : Nat :=
  365 * (y - 1) + (y - 1) / 4 - (y - 1) / 100 + (y - 1) / 400

/-- Days in the months of year `y` strictly before month `m`, as in CPython
`_days_before_month`. -/
def daysBeforeMonth (y m : Nat) : Nat :=
  (match m with
   | 2 => 31 | 3 => 59 | 4 => 90 | 5 => 120 | 6 => 151 | 7 => 181
   | 8 => 212 | 9 => 243 | 10 => 273 | 11 => 304 | 12 => 334 | _ => 0)
  + (if isLeap y && decide (3 ≤ m) then 1 else 0)

/-- Python `date.toordinal` (day 1 is 0001-01-01). -/
def toOrdinal (d : PyDate) : Nat :=
  daysBeforeYear d.year + daysBeforeMonth d.year d.month + d.day

/-- Python `date.weekday()`: Monday = 0, …, Sunday = 6. -/
def weekday (d : PyDate) : Nat := (toOrdinal d + 6) % 7

/-- Python `(a - b).days` for two dates. -/
def dateSub (a b : PyDate) : Int := (toOrdinal a : Int) - (toOrdinal b : Int)

/-- Python date comparison `a < b`: lexicographic on (year, month, day). -/
def dateLt (a b : PyDate) : Bool :=
  decide (a.year < b.year) ||
  (a.year == b.year && (decide (a.month < b.month) ||
    (a.month == b.month && decide (a.day < b.day))))

/-- Successor of a valid date, as produced by `d + timedelta(days := 1)`. -/
def nextDay (d : PyDate) : PyDate :=
  if d.day < daysInMonth d.year d.month then ⟨d.year, d.month, d.day + 1⟩
  else if d.month < 12 then ⟨d.year, d.month + 1, 1⟩
  else ⟨d.year + 1, 1, 1⟩

/-- Python `d + timedelta(days := n)` for a small nonnegative `n`. -/
def addDays (d : PyDate) : Nat → PyDate
  | 0 => d
  | n + 1 => nextDay (addDays d n)

/-- ASCII digit test, `'0' ≤ c ≤ '9'`. -/
def isAsciiDigit (c : Char) : Bool := 48 ≤ c.toNat && c.toNat ≤ 57

/-- Numeric value of an ASCII digit character. -/
def digitVal (c : Char) : Nat := c.toNat - 48

/-- ASCII digit character for a value `0 ≤ n ≤ 9`. -/
def digitChar (n : Nat) : Char := Char.ofNat (48 + n)

/-- Inclusive code point ranges of every character accepted by Python
`str.isdigit`: the characters with Unicode numeric type Digit or Decimal
(ASCII digits, the superscripts and subscripts, all Nd digit blocks from
Arabic-Indic and Bengali through the supplementary planes, circled and
segmented digits), enumerated from CPython's Unicode 14.0 character data —
788 code points in 81 ranges. -/
def pyDigitRanges : List (Nat × Nat) :=
  [(48, 57), (178, 179), (185, 185), (1632, 1641), (1776, 1785), (1984, 1993),
   (2406, 2415), (2534, 2543), (2662, 2671), (2790, 2799), (2918, 2927),
   (3046, 3055), (3174, 3183), (3302, 3311), (3430, 3439), (3558, 3567),
   (3664, 3673), (3792, 3801), (3872, 3881), (4160, 4169), (4240, 4249),
   (4969, 4977), (6112, 6121), (6160, 6169), (6470, 6479), (6608, 6618),
   (6784, 6793), (6800, 6809), (6992, 7001), (7088, 7097), (7232, 7241),
   (7248, 7257), (8304, 8304), (8308, 8313), (8320, 8329), (9312, 9320),
   (9332, 9340), (9352, 9360), (9450, 9450), (9461, 9469), (9471, 9471),
   (10102, 10110), (10112, 10120), (10122, 10130), (42528, 42537),
   (43216, 43225), (43264, 43273), (43472, 43481), (43504, 43513),
   (43600, 43609), (44016, 44025), (65296, 65305), (66720, 66729),
   (68160, 68163), (68912, 68921), (69216, 69224), (69714, 69722),
   (69734, 69743), (69872, 69881), (69942, 69951), (70096, 70105),
   (70384, 70393), (70736, 70745), (70864, 70873), (71248, 71257),
   (71360, 71369), (71472, 71481), (71904, 71913), (72016, 72025),
   (72784, 72793), (73040, 73049), (73120, 73129), (92768, 92777),
   (92864, 92873), (93008, 93017), (120782, 120831), (123200, 123209),
   (123632, 123641), (125264, 125273), (127232, 127242), (130032, 130041)]

/-- Python `str.isdigit` on one character: membership in one of the digit
code point ranges above. -/
def pyIsDigit (c : Char) : Bool :=
  pyDigitRanges.any (fun r => r.1 ≤ c.toNat && c.toNat ≤ r.2)

/-- Python `str.isdigit` on a whole string: nonempty and all characters are
digits. -/
def strIsdigit (s : String) : Bool := !s.data.isEmpty && s.data.all pyIsDigit

/-- Two-character zero-padded decimal rendering (strftime `%d` and `%m` for
in-range values). -/
def pad2 (n : Nat) : List Char := [digitChar (n / 10), digitChar (n % 10)]

/-- Four-character zero-padded decimal rendering (strftime `%Y` as documented
for years up to 9999). -/
def pad4 (n : Nat) : List Char :=
  [digitChar (n / 1000), digitChar (n / 100 % 10),
   digitChar (n / 10 % 10), digitChar (n % 10)]

/-- Python `d.strftime("%d.%m.%Y")`. -/
def formatDDMMYYYY (d : PyDate) : String :=
  String.mk (pad2 d.day ++ '.' :: pad2 d.month ++ '.' :: pad4 d.year)

/-- Python `d.strftime("%Y-%m-%d")`. -/
def formatYMD (d : PyDate) : String :=
  String.mk (pad4 d.year ++ '-' :: pad2 d.month ++ '-' :: pad2 d.day)

/-- Field parser for strptime `%d` (bound 31) and `%m` (bound 12): the
CPython `_strptime` regexes accept a two-digit value from 1 to the bound, or
else a single nonzero digit, leaving the rest of the input.  Non-ASCII
digit variants accepted by the regex `\d` class are not modelled. -/
def parse2or1 (bound : Nat) : List Char → Option (Nat × List Char)
  | a :: b :: rest =>
    if isAsciiDigit a && isAsciiDigit b &&
        decide (1 ≤ 10 * digitVal a + digitVal b) &&
        decide (10 * digitVal a + digitVal b ≤ bound) then
      some (10 * digitVal a + digitVal b, rest)
    else if isAsciiDigit a && decide (1 ≤ digitVal a) then
      some (digitVal a, b :: rest)
    else none
  | [a] =>
    if isAsciiDigit a && decide (1 ≤ digitVal a) then some (digitVal a, [])
    else none
  | [] => none

/-- Field parser for strptime `%Y`: exactly four digits ending the input. -/
def parse4 : List Char → Option Nat
  | [a, b, c, d] =>
    if isAsciiDigit a && isAsciiDigit b && isAsciiDigit c && isAsciiDigit d then
      some (1000 * digitVal a + 100 * digitVal b + 10 * digitVal c + digitVal d)
    else none
  | _ => none

/-- Python `datetime.strptime(s, "%d.%m.%Y").date()`: day field, literal dot,
month field, literal dot, four-digit year consuming the whole string, then
the `datetime` constructor's field validation. -/
def strptimeDMY (l : List Char) : Option PyDate :=
  match parse2or1 31 l with
  | none => none
  | some (d, l1) =>
    match l1 with
    | [] => none
    | c1 :: l2 =>
      if c1 = '.' then
        match parse2or1 12 l2 with
        | none => none
        | some (m, l3) =>
          match l3 with
          | [] => none
          | c2 :: l4 =>
            if c2 = '.' then
              match parse4 l4 with
              | none => none
              | some y => if validDate y m d then some ⟨y, m, d⟩ else none
            else none
      else none

/-- Python exception classes that the program can raise, with the payload
message for `ValueError`. -/
inductive PyErr where
  | valueError (msg : String)
  | keyError
  | indexError
  | attributeError
deriving DecidableEq, Repr

/-- Whitespace characters removed by Python `str.strip()`. -/
def isPySpace (c : Char) : Bool :=
  c == ' ' || c == '\t' || c == '\n' || c == '\r' ||
  c.toNat == 11 || c.toNat == 12

/-- Python `msg.strip()`: drop leading and trailing whitespace. -/
def pyStrip (s : String) : String :=
  String.mk (((s.data.dropWhile isPySpace).reverse.dropWhile isPySpace).reverse)

/-- Message normalization of the `input_error` decorator: each caught
exception class is mapped to the displayed string (the `ValueError` branch
returns the stripped message, or a fallback when it is empty). -/
def pyErrMessage : PyErr → String
  | .keyError => "Contact not found."
  | .indexError => "Enter arguments."
  | .attributeError => "Contact not found."
  | .valueError msg =>
    if pyStrip msg = "" then "Give me name and phone please." else pyStrip msg

/-- Phone field construction, `Phone.__init__` with `Phone._validate`: the
stored value is the raw string, accepted only when `value.isdigit()` holds
and the length is exactly 10. -/
def Phone.construct (value : String) : Except PyErr String :=
  if !strIsdigit value || value.length ≠ 10 then
    .error (.valueError "Phone must contain exactly 10 digits")
  else .ok value

/-- Birthday field construction, `Birthday.__init__`: `strptime` with format
`%d.%m.%Y`, any parse failure re-raised as the fixed `ValueError`. -/
def Birthday.construct (s : String) : Except PyErr PyDate :=
  match strptimeDMY s.data with
  | some d => .ok d
  | none => .error (.valueError "Invalid date format. Use DD.MM.YYYY")

/-- Birthday rendering, `Birthday.__str__`: `strftime("%d.%m.%Y")`. -/
def Birthday.render (d : PyDate) : String := formatDDMMYYYY d

/-- One contact, class `Record`: a name, an ordered list of validated phone
values, and an optional birthday date. -/
structure Record where
  name : String
  phones : List String
  birthday : Option PyDate
deriving DecidableEq, Repr

/-- Method `Record.add_phone`: validate, then append. -/
def Record.add_phone (rec : Record) (phone : String) : Except PyErr Record :=
  match Phone.construct phone with
  | .error e => .error e
  | .ok p => .ok { rec with phones := rec.phones ++ [p] }

/-- Method `Record.find_phone`: the first stored phone equal to the argument. -/
def Record.find_phone (rec : Record) (phone : String) : Option String :=
  rec.phones.find? (fun p => p = phone)

/-- Replacement of the value of the first occurrence of `old`, as mutating
the `Phone` object returned by `find_phone` does. -/
def replaceFirst (ps : List String) (old new : String) : List String :=
  match ps with
  | [] => []
  | p :: rest => if p = old then new :: rest else p :: replaceFirst rest old new

/-- Method `Record.remove_phone`: drop the first matching phone, no-op when
absent. -/
def Record.remove_phone (rec : Record) (phone : String) : Record :=
  match rec.find_phone phone with
  | none => rec
  | some _ => { rec with phones := rec.phones.eraseP (fun p => p = phone) }

/-- Method `Record.edit_phone`: raise when `old` is absent, otherwise
validate `new` and overwrite the first matching phone's value in place. -/
def Record.edit_phone (rec : Record) (old new : String) : Except PyErr Record :=
  match rec.find_phone old with
  | none => .error (.valueError "Old phone not found")
  | some _ =>
    match Phone.construct new with
    | .error e => .error e
    | .ok p => .ok { rec with phones := replaceFirst rec.phones old p }

/-- Method `Record.add_birthday`: construct a `Birthday` and overwrite the
field. -/
def Record.add_birthday (rec : Record) (s : String) : Except PyErr Record :=
  match Birthday.construct s with
  | .error e => .error e
  | .ok d => .ok { rec with birthday := some d }

/-- Method `Record.__str__`. -/
def Record.render (rec : Record) : String :=
  "Contact name: " ++ rec.name ++ ", phones: " ++
  (if rec.phones.isEmpty then "no phones" else String.intercalate "; " rec.phones) ++
  (match rec.birthday with
   | some d => ", birthday: " ++ Birthday.render d
   | none => "")

/-- Class `AddressBook` (a `UserDict`): records in key insertion order, keys
being the record names. -/
abbrev Book := List Record

/-- Names of the stored records in order. -/
def bookNames (book : Book) : List String := book.map Record.name

/-- Dict-shape invariant of the store: one record per name. -/
def namesNodup (book : Book) : Prop := (bookNames book).Nodup

/-- Method `AddressBook.find`, `self.data.get(name)`. -/
def bookFind (book : Book) (name : String) : Option Record :=
  book.find? (fun r => r.name = name)

/-- Overwrite of the first record carrying the given name. -/
def replaceRecord : Book → Record → Book
  | [], _ => []
  | x :: xs, r => if x.name = r.name then r :: xs else x :: replaceRecord xs r

/-- Method `AddressBook.add_record`, `self.data[record.name.value] = record`:
dict assignment updates an existing key in place, else appends. -/
def addRecord (book : Book) (r : Record) : Book :=
  if book.any (fun x => x.name = r.name) then replaceRecord book r
  else book ++ [r]

/-- Method `AddressBook.delete`: remove the entry when present. -/
def bookDelete (book : Book) (name : String) : Book :=
  match book with
  | [] => []
  | x :: xs => if x.name = name then xs else x :: bookDelete xs name

/-- In-place mutation of the record that `bookFind` returned (the handlers
mutate the found `Record` object, which the dict aliases). -/
def bookModify (book : Book) (name : String) (f : Record → Record) : Book :=
  match book with
  | [] => []
  | x :: xs => if x.name = name then f x :: xs else x :: bookModify xs name f

/-- Loop body of `AddressBook.get_upcoming_birthdays`, lines 120-124:
rebase the stored birthday to the current year, moving to the next year when
the rebased date has already passed. -/
def computeCandidate (today b : PyDate) : Except String PyDate :=
  match replaceYear b today.year with
  | .error e => .error e
  | .ok t => if dateLt t today then replaceYear t (today.year + 1) else .ok t

/-- Weekend shift of lines 130-133: Saturday moves two days, Sunday one. -/
def weekendShift (d : PyDate) : PyDate :=
  if weekday d = 5 then addDays d 2
  else if weekday d = 6 then addDays d 1
  else d

/-- Per-record step of `AddressBook.get_upcoming_birthdays`: skip records
without a birthday; otherwise compute the candidate date, apply the 7-day
window test, and only then the weekend shift and the `%Y-%m-%d` rendering. -/
def upcomingEntry (today : PyDate) (rec : Record) : Except String (Option (String × String)) :=
  match rec.birthday with
  | none => .ok none
  | some b =>
    match computeCandidate today b with
    | .error e => .error e
    | .ok cand =>
      if 0 ≤ dateSub cand today ∧ dateSub cand today < 7 then
        .ok (some (rec.name, formatYMD (weekendShift cand)))
      else .ok none

/-- Method `AddressBook.get_upcoming_birthdays`: fold the per-record step
over the store in iteration order; an exception from any record aborts the
whole computation. -/
def getUpcomingBirthdays (today : PyDate) : Book → Except String (List (String × String))
  | [] => .ok []
  | r :: rs =>
    match upcomingEntry today r with
    | .error e => .error e
    | .ok none => getUpcomingBirthdays today rs
    | .ok (some p) =>
      match getUpcomingBirthdays today rs with
      | .error e => .error e
      | .ok l => .ok (p :: l)

/-- Wrapper produced by the `input_error` decorator: the handler's result
book is kept (mutations before an exception persist) and an exception is
converted to its display message. -/
def runHandler (h : List String → Book → Book × Except PyErr String)
    (args : List String) (book : Book) : Book × String :=
  match h args book with
  | (b, .ok s) => (b, s)
  | (b, .error e) => (b, pyErrMessage e)

/-- Handler `add_contact`: raise on fewer than two arguments; upsert the
record for the name (inserting a fresh empty record into the book first, as
the source does, so the insertion persists even when the phone is invalid);
append the phone when it is nonempty. -/
def add_contact (args : List String) (book : Book) : Book × Except PyErr String :=
  match args with
  | name :: phone :: _ =>
    (match bookFind book name with
     | some rec =>
       if phone ≠ "" then
         match rec.add_phone phone with
         | .ok rec2 => (bookModify book name (fun _ => rec2), .ok "Contact updated.")
         | .error e => (book, .error e)
       else (book, .ok "Contact updated.")
     | none =>
       let fresh : Record := ⟨name, [], none⟩
       let book1 := addRecord book fresh
       if phone ≠ "" then
         match fresh.add_phone phone with
         | .ok rec2 => (bookModify book1 name (fun _ => rec2), .ok "Contact added.")
         | .error e => (book1, .error e)
       else (book1, .ok "Contact added."))
  | _ => (book, .error (.valueError "Give me name and phone please."))

/-- Handler `change_contact`: with two arguments, dispatch on the phone
count of the found record (a missing record raises `AttributeError` at the
`record.phones` access); with three arguments, `edit_phone`; any other
argument count raises. -/
def change_contact (args : List String) (book : Book) : Book × Except PyErr String :=
  match args with
  | [name, new] =>
    (match bookFind book name with
     | none => (book, .error .attributeError)
     | some rec =>
       match rec.phones with
       | [] =>
         match rec.add_phone new with
         | .ok rec2 => (bookModify book name (fun _ => rec2), .ok "Contact updated.")
         | .error e => (book, .error e)
       | [p0] =>
         (match rec.edit_phone p0 new with
          | .ok rec2 => (bookModify book name (fun _ => rec2), .ok "Contact updated.")
          | .error e => (book, .error e))
       | _ :: _ :: _ =>
         (book, .error (.valueError
           "Contact has several phones, use: change <name> <old_phone> <new_phone>")))
  | [name, old, new] =>
    (match bookFind book name with
     | none => (book, .error .attributeError)
     | some rec =>
       match rec.edit_phone old new with
       | .ok rec2 => (bookModify book name (fun _ => rec2), .ok "Contact updated.")
       | .error e => (book, .error e))
  | _ => (book, .error (.valueError "Give me name and phone(s) please."))

/-- Handler `show_phone`: `args[0]` raises `IndexError` when empty; a missing
record raises `AttributeError` at `record.phones`. -/
def show_phone (args : List String) (book : Book) : Book × Except PyErr String :=
  match args with
  | [] => (book, .error .indexError)
  | name :: _ =>
    match bookFind book name with
    | none => (book, .error .attributeError)
    | some rec =>
      (book, .ok (if rec.phones.isEmpty then "No phones."
                  else String.intercalate "; " rec.phones))

/-- Handler `show_all` (takes only the book in the source; the argument list
is accepted and ignored here for a uniform shape). -/
def show_all (_args : List String) (book : Book) : Book × Except PyErr String :=
  if book.isEmpty then (book, .ok "No contacts.")
  else (book, .ok (String.intercalate "\n" (book.map Record.render)))

/-- Handler `add_birthday` (the command-layer function of that name): raise
on fewer than two arguments; upsert the record, inserting a fresh one first
when absent, then set the birthday (a parse failure still leaves the fresh
record inserted). -/
def add_birthday (args : List String) (book : Book) : Book × Except PyErr String :=
  match args with
  | name :: bdayStr :: _ =>
    (match bookFind book name with
     | some rec =>
       (match rec.add_birthday bdayStr with
        | .ok rec2 => (bookModify book name (fun _ => rec2), .ok "Birthday added.")
        | .error e => (book, .error e))
     | none =>
       let fresh : Record := ⟨name, [], none⟩
       let book1 := addRecord book fresh
       match fresh.add_birthday bdayStr with
       | .ok rec2 => (bookModify book1 name (fun _ => rec2), .ok "Birthday added.")
       | .error e => (book1, .error e))
  | _ => (book, .error (.valueError "Give me name and birthday in format DD.MM.YYYY"))

/-- Handler `show_birthday`: raise on no arguments; a missing record raises
`AttributeError` at `record.birthday`. -/
def show_birthday (args : List String) (book : Book) : Book × Except PyErr String :=
  match args with
  | [] => (book, .error (.valueError "Enter contact name."))
  | name :: _ =>
    match bookFind book name with
    | none => (book, .error .attributeError)
    | some rec =>
      match rec.birthday with
      | none => (book, .ok "No birthday set.")
      | some d => (book, .ok (Birthday.render d))

/-- Handler `delete_contact`: raise on no arguments; the `record.name` probe
raises `AttributeError` when the record is missing; otherwise delete. -/
def delete_contact (args : List String) (book : Book) : Book × Except PyErr String :=
  match args with
  | [] => (book, .error (.valueError "Enter user name."))
  | name :: _ =>
    match bookFind book name with
    | none => (book, .error .attributeError)
    | some _ => (bookDelete book name, .ok "Contact deleted.")

/-- Stable insertion into a list sorted by the congratulation-date string
(an entry is a (name, congratulation_date) pair): the inserted element, which
precedes the list's elements in the original order, goes before any entry
with an equal key, matching Python's stable `sorted`. -/
def insertByDate (p : String × String) : List (String × String) → List (String × String)
  | [] => [p]
  | q :: qs => if q.2 < p.2 then q :: insertByDate p qs else p :: q :: qs

/-- Python `sorted(upcoming, key := congratulation_date)`: a stable sort on
the date string. -/
def sortByDate : List (String × String) → List (String × String)
  | [] => []
  | p :: ps => insertByDate p (sortByDate ps)

/-- Handler `birthdays`: run the scheduler against the current date (here an
explicit `today` standing for `date.today()`), then sort by the date string
and render one line per entry. -/
def birthdays (today : PyDate) (_args : List String) (book : Book) :
    Book × Except PyErr String :=
  match getUpcomingBirthdays today book with
  | .error e => (book, .error (.valueError e))
  | .ok [] => (book, .ok "No upcoming birthdays.")
  | .ok l =>
    (book, .ok (String.intercalate "\n"
      ((sortByDate l).map (fun p => p.2 ++ ": " ++ p.1))))

lemma bookFind_nil (n : String) : bookFind [] n = none := rfl

lemma bookFind_cons (x : Record) (xs : Book) (n : String) :
    bookFind (x :: xs) n = if x.name = n then some x else bookFind xs n := by
  by_cases h : x.name = n
  · rw [if_pos h]
    exact List.find?_cons_of_pos _ (by simpa using h)
  · rw [if_neg h]
    exact List.find?_cons_of_neg _ (by simpa using h)

lemma bookFind_none_iff (book : Book) (n : String) :
    bookFind book n = none ↔ ∀ x ∈ book, x.name ≠ n := by
  simp [bookFind, List.find?_eq_none]

lemma find_replaceRecord_self (book : Book) (r : Record)
    (h : book.any (fun x => x.name = r.name) = true) :
    bookFind (replaceRecord book r) r.name = some r := by
  induction book with
  | nil => simp at h
  | cons x xs ih =>
    by_cases hx : x.name = r.name
    · show bookFind (if x.name = r.name then r :: xs else x :: replaceRecord xs r) r.name = some r
      rw [if_pos hx, bookFind_cons, if_pos rfl]
    · show bookFind (if x.name = r.name then r :: xs else x :: replaceRecord xs r) r.name = some r
      rw [if_neg hx, bookFind_cons, if_neg hx]
      apply ih
      simp only [List.any_cons, Bool.or_eq_true, decide_eq_true_eq] at h
      rcases h with h | h
      · exact absurd h hx
      · exact h

lemma find_replaceRecord_other (book : Book) (r : Record) (n : String)
    (hn : n ≠ r.name) :
    bookFind (replaceRecord book r) n = bookFind book n := by
  induction book with
  | nil => rfl
  | cons x xs ih =>
    show bookFind (if x.name = r.name then r :: xs else x :: replaceRecord xs r) n
      = bookFind (x :: xs) n
    by_cases hx : x.name = r.name
    · rw [if_pos hx, bookFind_cons, bookFind_cons]
      have hrn : ¬(r.name = n) := fun hh => hn hh.symm
      have hxn : ¬(x.name = n) := by rw [hx]; exact hrn
      rw [if_neg hrn, if_neg hxn]
    · rw [if_neg hx, bookFind_cons, bookFind_cons, ih]

lemma names_replaceRecord (book : Book) (r : Record)
    (h : book.any (fun x => x.name = r.name) = true) :
    bookNames (replaceRecord book r) = bookNames book := by
  induction book with
  | nil => simp at h
  | cons x xs ih =>
    show bookNames (if x.name = r.name then r :: xs else x :: replaceRecord xs r)
      = bookNames (x :: xs)
    by_cases hx : x.name = r.name
    · rw [if_pos hx]
      simp [bookNames, hx]
    · rw [if_neg hx]
      have hxs : xs.any (fun x => x.name = r.name) = true := by
        simp only [List.any_cons, Bool.or_eq_true, decide_eq_true_eq] at h
        rcases h with h | h
        · exact absurd h hx
        · exact h
      simp only [bookNames, List.map_cons] at ih ⊢
      rw [ih hxs]

lemma find_append_left (book l2 : Book) (n : String) (v : Record)
    (h : bookFind book n = some v) :
    bookFind (book ++ l2) n = some v := by
  induction book with
  | nil => simp [bookFind] at h
  | cons x xs ih =>
    rw [List.cons_append, bookFind_cons]
    rw [bookFind_cons] at h
    by_cases hx : x.name = n
    · rwa [if_pos hx] at h ⊢
    · rw [if_neg hx] at h ⊢
      exact ih h

lemma find_append_right (book l2 : Book) (n : String)
    (h : bookFind book n = none) :
    bookFind (book ++ l2) n = bookFind l2 n := by
  induction book with
  | nil => rfl
  | cons x xs ih =>
    rw [List.cons_append, bookFind_cons]
    rw [bookFind_cons] at h
    by_cases hx : x.name = n
    · rw [if_pos hx] at h
      exact absurd h (by simp)
    · rw [if_neg hx] at h ⊢
      exact ih h

/-- C4 claim: adding a record whose name is already present replaces the prior
record entirely (lookup under that name yields exactly the new record, so the
old phones and birthday are gone), lookups under other names are untouched,
and the store keeps at most one record per name. -/
theorem c4_add_record_overwrites (book : Book) (r : Record) (h : namesNodup book) :
    bookFind (addRecord book r) r.name = some r ∧
    (∀ n, n ≠ r.name → bookFind (addRecord book r) n = bookFind book n) ∧
    namesNodup (addRecord book r) := by
  unfold addRecord
  by_cases hany : book.any (fun x => x.name = r.name) = true
  · rw [if_pos hany]
    refine ⟨find_replaceRecord_self book r hany,
      fun n hn => find_replaceRecord_other book r n hn, ?_⟩
    unfold namesNodup
    rw [names_replaceRecord book r hany]
    exact h
  · rw [if_neg hany]
    have hnone : bookFind book r.name = none := by
      rw [bookFind_none_iff]
      intro x hx hcontra
      exact hany (List.any_eq_true.mpr ⟨x, hx, by simp [hcontra]⟩)
    refine ⟨?_, ?_, ?_⟩
    · rw [find_append_right book [r] r.name hnone, bookFind_cons, if_pos rfl]
    · intro n hn
      cases hfind : bookFind book n with
      | none =>
        rw [find_append_right book [r] n hfind, bookFind_cons,
          if_neg (fun hh => hn hh.symm), bookFind_nil]
      | some v => exact find_append_left book [r] n v hfind
    · unfold namesNodup bookNames
      rw [List.map_append, List.nodup_append]
      refine ⟨h, by simp, ?_⟩
      intro a ha
      simp only [List.map_cons, List.map_nil, List.mem_singleton]
      intro har
      rw [bookFind_none_iff] at hnone
      simp only [List.mem_map] at ha
      obtain ⟨x, hx, hxa⟩ := ha
      exact hnone x hx (by rw [hxa, har])

/-- C4 witness: re-adding a record named Ann with no phones makes the stored
Ann record exactly the phoneless one. -/
theorem c4_witness :
    bookFind (addRecord [⟨"Ann", ["1111111111"], none⟩] ⟨"Ann", [], none⟩) "Ann"
      = some ⟨"Ann", [], none⟩ :=
  (c4_add_record_overwrites [⟨"Ann", ["1111111111"], none⟩] ⟨"Ann", [], none⟩
    (by simp [namesNodup, bookNames])).1

lemma find_phone_none_iff (rec : Record) (p : String) :
    rec.find_phone p = none ↔ p ∉ rec.phones := by
  simp only [Record.find_phone, List.find?_eq_none, decide_eq_true_eq]
  constructor
  · intro h hp
    exact h p hp rfl
  · intro h x hx hxp
    exact h (hxp ▸ hx)

lemma find?_self_of_mem (ps : List String) (p : String) (h : p ∈ ps) :
    ps.find? (fun x => x = p) = some p := by
  induction ps with
  | nil => simp at h
  | cons x xs ih =>
    by_cases hx : x = p
    · rw [List.find?_cons_of_pos _ (by simpa using hx), hx]
    · rw [List.find?_cons_of_neg _ (by simpa using hx)]
      rcases List.mem_cons.mp h with h' | h'
      · exact absurd h'.symm hx
      · exact ih h'

lemma find_phone_mem (rec : Record) (p : String) (h : p ∈ rec.phones) :
    rec.find_phone p = some p :=
  find?_self_of_mem rec.phones p h

lemma replaceFirst_spec (ps : List String) (old new : String) (h : old ∈ ps) :
    ∃ i : Nat, ps[i]? = some old ∧ (∀ j : Nat, j < i → ps[j]? ≠ some old) ∧
      replaceFirst ps old new = ps.set i new := by
  induction ps with
  | nil => simp at h
  | cons p rest ih =>
    by_cases hp : p = old
    · refine ⟨0, by simp [hp], by simp, ?_⟩
      simp [replaceFirst, hp]
    · rcases List.mem_cons.mp h with h' | h'
      · exact absurd h'.symm hp
      · obtain ⟨i, hi1, hi2, hi3⟩ := ih h'
        refine ⟨i + 1, by simpa using hi1, ?_, ?_⟩
        · intro j hj
          cases j with
          | zero => simpa using hp
          | succ j' =>
            have hj' : j' < i := by omega
            simpa using hi2 j' hj'
        · simp only [replaceFirst, if_neg hp, List.set]
          rw [hi3]

/-- C5 claim: `edit_phone` fails with the not-found message when the old value
is absent; when it is present it propagates any validation error of the new
value unchanged, and on success it overwrites exactly the first occurrence of
the old value in place, preserving its position. -/
theorem c5_edit_phone (rec : Record) (old new : String) :
    (old ∉ rec.phones →
      rec.edit_phone old new = .error (.valueError "Old phone not found")) ∧
    (old ∈ rec.phones →
      (∀ e, Phone.construct new = .error e → rec.edit_phone old new = .error e) ∧
      (Phone.construct new = .ok new →
        ∃ i : Nat, rec.phones[i]? = some old ∧
          (∀ j : Nat, j < i → rec.phones[j]? ≠ some old) ∧
          rec.edit_phone old new = .ok { rec with phones := rec.phones.set i new })) := by
  constructor
  · intro h
    unfold Record.edit_phone
    rw [(find_phone_none_iff rec old).mpr h]
  · intro h
    constructor
    · intro e he
      unfold Record.edit_phone
      rw [find_phone_mem rec old h, he]
    · intro hok
      obtain ⟨i, hi1, hi2, hi3⟩ := replaceFirst_spec rec.phones old new h
      refine ⟨i, hi1, hi2, ?_⟩
      unfold Record.edit_phone
      rw [find_phone_mem rec old h, hok]
      dsimp only
      rw [hi3]

/-- C5 witness: editing the sole phone of a concrete record succeeds at its
position, and a not-found edit fails with the documented message. -/
theorem c5_witness :
    (∃ i : Nat,
      (⟨"A", ["1111111111"], none⟩ : Record).phones[i]? = some "1111111111" ∧
      (∀ j : Nat, j < i →
        (⟨"A", ["1111111111"], none⟩ : Record).phones[j]? ≠ some "1111111111") ∧
      Record.edit_phone ⟨"A", ["1111111111"], none⟩ "1111111111" "2222222222"
        = .ok { (⟨"A", ["1111111111"], none⟩ : Record) with
                phones := (⟨"A", ["1111111111"], none⟩ : Record).phones.set i "2222222222" }) ∧
    Record.edit_phone ⟨"A", ["1111111111"], none⟩ "3333333333" "2222222222"
      = .error (.valueError "Old phone not found") :=
  ⟨(c5_edit_phone ⟨"A", ["1111111111"], none⟩ "1111111111" "2222222222").2
      (by simp) |>.2 rfl,
   (c5_edit_phone ⟨"A", ["1111111111"], none⟩ "3333333333" "2222222222").1
      (by decide)⟩

/-- C2 counterexample: a ten-character string of Arabic-Indic digits (which
Python `str.isdigit` accepts) passes `Phone` validation even though it does
not consist of ASCII digit characters, refuting the "only if ASCII digits"
direction of the claim. -/
theorem c2_counterexample :
    Phone.construct "٠١٢٣٤٥٦٧٨٩" = .ok "٠١٢٣٤٥٦٧٨٩" ∧
    "٠١٢٣٤٥٦٧٨٩".length = 10 ∧
    ¬(∀ c ∈ "٠١٢٣٤٥٦٧٨٩".data, isAsciiDigit c = true) :=
  ⟨rfl, by decide, by decide⟩

/-- C2 amended claim: `Phone` construction succeeds, preserving the exact
string, if and only if the input has length 10 and every character is a
digit in the sense of Python `str.isdigit` (which includes non-ASCII decimal
digits); every other string is rejected with the fixed validation message. -/
theorem c2_phone_validation (s : String) :
    (Phone.construct s = .ok s ↔
      (s.length = 10 ∧ ∀ c ∈ s.data, pyIsDigit c = true)) ∧
    (∀ t, Phone.construct s = .ok t → t = s) ∧
    (¬(s.length = 10 ∧ ∀ c ∈ s.data, pyIsDigit c = true) →
      Phone.construct s = .error (.valueError "Phone must contain exactly 10 digits")) := by
  have hlen : s.length = s.data.length := rfl
  by_cases hcond : (!strIsdigit s || decide (s.length ≠ 10)) = true
  · have hc : Phone.construct s
        = .error (.valueError "Phone must contain exactly 10 digits") := by
      unfold Phone.construct
      rw [if_pos hcond]
    refine ⟨?_, ?_, fun _ => hc⟩
    · rw [hc]
      simp only [false_iff, reduceCtorEq]
      intro ⟨h10, hall⟩
      simp only [Bool.or_eq_true, Bool.not_eq_eq_eq_not, Bool.not_true,
        decide_eq_true_eq] at hcond
      rcases hcond with hcond | hcond
      · unfold strIsdigit at hcond
        simp only [Bool.and_eq_false_iff, Bool.not_eq_false] at hcond
        rcases hcond with hcond | hcond
        · have hd : s.data.length = 10 := by rw [← hlen]; exact h10
          have hemp : s.data.isEmpty = true := by
            cases hb : s.data.isEmpty
            · rw [hb] at hcond
              simp at hcond
            · rfl
          rw [List.isEmpty_iff] at hemp
          rw [hemp] at hd
          simp at hd
        · exact absurd (List.all_eq_true.mpr hall) (by simp [hcond])
      · exact hcond h10
    · rw [hc]
      intro t ht
      cases ht
  · have hc : Phone.construct s = .ok s := by
      unfold Phone.construct
      rw [if_neg (by simpa using hcond)]
    simp only [Bool.or_eq_true, Bool.not_eq_eq_eq_not, Bool.not_true,
      decide_eq_true_eq, not_or, Bool.not_eq_false] at hcond
    obtain ⟨hdig, h10⟩ := hcond
    have h10' : s.length = 10 := by omega
    unfold strIsdigit at hdig
    simp only [Bool.and_eq_true, Bool.not_eq_eq_eq_not, Bool.not_true,
      List.all_eq_true] at hdig
    refine ⟨?_, ?_, ?_⟩
    · rw [hc]
      simp only [Except.ok.injEq, true_iff]
      exact ⟨h10', hdig.2⟩
    · intro t ht
      rw [hc] at ht
      cases ht
      rfl
    · intro hcontra
      exact absurd ⟨h10', hdig.2⟩ hcontra

/-- C2 witness for the amended claim: a valid ten-digit string is accepted
and preserved, and a short string is rejected with the message. -/
theorem c2_witness :
    Phone.construct "1234567890" = .ok "1234567890" ∧
    Phone.construct "123" = .error (.valueError "Phone must contain exactly 10 digits") :=
  ⟨(c2_phone_validation "1234567890").1.mpr (by decide),
   (c2_phone_validation "123").2.2 (by decide)⟩

/-- C8 claim: the wrapped `phone` handler always yields a displayable string
and never an exception: the book is never mutated, an empty argument list
becomes "Enter arguments.", a missing contact is normalized to
"Contact not found." (as is every `KeyError` or `AttributeError` in the
`input_error` wrapper), and a found record yields its phone listing. -/
theorem c8_handler_total (args : List String) (book : Book) :
    (runHandler show_phone args book).1 = book ∧
    (args = [] → (runHandler show_phone args book).2 = "Enter arguments.") ∧
    (∀ name rest, args = name :: rest →
      (bookFind book name = none →
        (runHandler show_phone args book).2 = "Contact not found.") ∧
      (∀ rec, bookFind book name = some rec →
        (runHandler show_phone args book).2 =
          if rec.phones.isEmpty then "No phones."
          else String.intercalate "; " rec.phones)) ∧
    (∀ e : PyErr, e = .keyError ∨ e = .attributeError →
      pyErrMessage e = "Contact not found.") := by
  refine ⟨?_, ?_, ?_, ?_⟩
  · cases args with
    | nil => rfl
    | cons name rest =>
      cases h : bookFind book name <;> simp [runHandler, show_phone, h]
  · intro h
    rw [h]
    rfl
  · intro name rest h
    subst h
    constructor
    · intro hfind
      simp [runHandler, show_phone, hfind, pyErrMessage]
    · intro rec hfind
      simp only [runHandler, show_phone, hfind]
  · intro e he
    rcases he with he | he <;> rw [he] <;> rfl

/-- C8 witness: the `phone` command for a name absent from the empty store
returns the normalized message. -/
theorem c8_witness :
    (runHandler show_phone ["Nobody"] []).2 = "Contact not found." :=
  ((c8_handler_total ["Nobody"] []).2.2.1 "Nobody" [] rfl).1 rfl

lemma phone_ok_parts (p : String) (h : Phone.construct p = .ok p) :
    strIsdigit p = true ∧ p.length = 10 := by
  unfold Phone.construct at h
  by_cases hc : (!strIsdigit p || decide (p.length ≠ 10)) = true
  · rw [if_pos hc] at h
    cases h
  · simp only [Bool.or_eq_true, Bool.not_eq_eq_eq_not, Bool.not_true,
      decide_eq_true_eq, not_or, Bool.not_eq_false] at hc
    exact ⟨hc.1, by omega⟩

lemma phone_ok_ne_empty (p : String) (h : Phone.construct p = .ok p) : p ≠ "" := by
  intro hp
  have := (phone_ok_parts p h).2
  rw [hp] at this
  simp at this

lemma bookModify_cons_self (x : Record) (xs : Book) (n : String)
    (f : Record → Record) (h : x.name = n) :
    bookModify (x :: xs) n f = f x :: xs := by
  show (if x.name = n then f x :: xs else x :: bookModify xs n f) = f x :: xs
  rw [if_pos h]

lemma bookModify_append_right (book l : Book) (n : String) (f : Record → Record)
    (h : bookFind book n = none) :
    bookModify (book ++ l) n f = book ++ bookModify l n f := by
  induction book with
  | nil => rfl
  | cons x xs ih =>
    rw [bookFind_cons] at h
    by_cases hx : x.name = n
    · rw [if_pos hx] at h
      cases h
    · rw [if_neg hx] at h
      show (if x.name = n then f x :: (xs ++ l) else x :: bookModify (xs ++ l) n f)
        = x :: (xs ++ bookModify l n f)
      rw [if_neg hx, ih h]

lemma addRecord_of_absent (book : Book) (r : Record)
    (h : bookFind book r.name = none) :
    addRecord book r = book ++ [r] := by
  unfold addRecord
  rw [if_neg]
  intro hany
  rw [bookFind_none_iff] at h
  obtain ⟨x, hx, hxr⟩ := List.any_eq_true.mp hany
  exact h x hx (by simpa using hxr)

/-- C6 claim: the `add` command upserts a record for the name, appending the
(valid, nonempty) phone without deduplication; it reports "Contact added."
on creation and "Contact updated." on reuse, and running it twice for the
same name with two valid phones leaves both phones in insertion order. -/
theorem c6_add_contact (book : Book) (name phone : String) (extra : List String)
    (hok : Phone.construct phone = .ok phone) :
    (bookFind book name = none →
      add_contact (name :: phone :: extra) book
        = (book ++ [⟨name, [phone], none⟩], .ok "Contact added.")) ∧
    (∀ rec, bookFind book name = some rec →
      add_contact (name :: phone :: extra) book
        = (bookModify book name (fun _ => { rec with phones := rec.phones ++ [phone] }),
           .ok "Contact updated.")) ∧
    (∀ p2, Phone.construct p2 = .ok p2 → bookFind book name = none →
      add_contact (name :: p2 :: extra) (add_contact (name :: phone :: extra) book).1
        = (book ++ [⟨name, [phone, p2], none⟩], .ok "Contact updated.")) := by
  have hne : phone ≠ "" := phone_ok_ne_empty phone hok
  have hadd : ∀ hfind : bookFind book name = none,
      add_contact (name :: phone :: extra) book
        = (book ++ [⟨name, [phone], none⟩], .ok "Contact added.") := by
    intro hfind
    unfold add_contact
    dsimp only
    rw [hfind]
    simp only [if_pos hne]
    unfold Record.add_phone
    rw [hok]
    have h1 : addRecord book ⟨name, [], none⟩ = book ++ [⟨name, [], none⟩] :=
      addRecord_of_absent book ⟨name, [], none⟩ hfind
    simp only []
    rw [h1, bookModify_append_right book [⟨name, [], none⟩] name _ hfind,
      bookModify_cons_self _ _ _ _ rfl]
    simp
  have hupd : ∀ (rec : Record), bookFind book name = some rec →
      add_contact (name :: phone :: extra) book
        = (bookModify book name (fun _ => { rec with phones := rec.phones ++ [phone] }),
           .ok "Contact updated.") := by
    intro rec hfind
    unfold add_contact
    dsimp only
    rw [hfind]
    simp only [if_pos hne]
    unfold Record.add_phone
    rw [hok]
  refine ⟨hadd, hupd, ?_⟩
  intro p2 hok2 hfind
  rw [hadd hfind]
  have hfind1 : bookFind (book ++ [(⟨name, [phone], none⟩ : Record)]) name
      = some ⟨name, [phone], none⟩ := by
    rw [find_append_right book _ name hfind, bookFind_cons, if_pos rfl]
  have hne2 : p2 ≠ "" := phone_ok_ne_empty p2 hok2
  unfold add_contact
  dsimp only
  rw [hfind1]
  simp only [if_pos hne2]
  unfold Record.add_phone
  rw [hok2]
  simp only []
  rw [bookModify_append_right book [(⟨name, [phone], none⟩ : Record)] name _ hfind,
    bookModify_cons_self _ _ _ _ rfl]
  simp

/-- C6 witness: adding Ann twice with two valid phones yields "Contact
added." then "Contact updated." with both phones kept in order. -/
theorem c6_witness :
    add_contact ["Ann", "0987654321"] (add_contact ["Ann", "1234567890"] []).1
      = ([⟨"Ann", ["1234567890", "0987654321"], none⟩], .ok "Contact updated.") :=
  (c6_add_contact [] "Ann" "1234567890" [] rfl).2.2 "0987654321" rfl rfl

/-- C7 claim: with two arguments, `change` adds the new phone when the found
record has no phones, edits the sole phone when it has exactly one, and
fails with the disambiguation message leaving the book unchanged when it has
several; with three arguments it edits the specific matching phone; any
other argument count fails with the usage message. -/
theorem c7_change_contact (book : Book) (name old new : String) :
    (∀ rec, bookFind book name = some rec →
      (rec.phones = [] → Phone.construct new = .ok new →
        change_contact [name, new] book
          = (bookModify book name (fun _ => { rec with phones := [new] }),
             .ok "Contact updated.")) ∧
      (∀ p0, rec.phones = [p0] → Phone.construct new = .ok new →
        change_contact [name, new] book
          = (bookModify book name (fun _ => { rec with phones := [new] }),
             .ok "Contact updated.")) ∧
      (1 < rec.phones.length →
        change_contact [name, new] book
          = (book, .error (.valueError
              "Contact has several phones, use: change <name> <old_phone> <new_phone>"))) ∧
      (old ∈ rec.phones → Phone.construct new = .ok new →
        change_contact [name, old, new] book
          = (bookModify book name
              (fun _ => { rec with phones := replaceFirst rec.phones old new }),
             .ok "Contact updated."))) ∧
    (∀ args : List String, args.length ≠ 2 → args.length ≠ 3 →
      change_contact args book
        = (book, .error (.valueError "Give me name and phone(s) please."))) := by
  constructor
  · intro rec hfind
    refine ⟨?_, ?_, ?_, ?_⟩
    · intro hempty hoknew
      unfold change_contact
      dsimp only
      rw [hfind]
      dsimp only
      rw [hempty]
      dsimp only
      unfold Record.add_phone
      rw [hoknew]
      dsimp only
      rw [hempty]
      simp
    · intro p0 hp hoknew
      unfold change_contact
      dsimp only
      rw [hfind]
      dsimp only
      rw [hp]
      dsimp only
      unfold Record.edit_phone
      have hmem : p0 ∈ rec.phones := by rw [hp]; exact List.mem_singleton.mpr rfl
      rw [find_phone_mem rec p0 hmem, hoknew]
      dsimp only
      rw [hp]
      simp [replaceFirst]
    · intro hlen
      unfold change_contact
      dsimp only
      rw [hfind]
      dsimp only
      cases hp : rec.phones with
      | nil => rw [hp] at hlen; simp at hlen
      | cons p t =>
        cases t with
        | nil => rw [hp] at hlen; simp at hlen
        | cons q t2 => rfl
    · intro hmem hoknew
      unfold change_contact
      dsimp only
      rw [hfind]
      dsimp only
      unfold Record.edit_phone
      rw [find_phone_mem rec old hmem, hoknew]
  · intro args h2 h3
    cases args with
    | nil => rfl
    | cons a t =>
      cases t with
      | nil => rfl
      | cons b t2 =>
        cases t2 with
        | nil => simp at h2
        | cons c t3 =>
          cases t3 with
          | nil => simp at h3
          | cons d t4 => rfl

/-- C7 witness: the three-argument form edits Ann's matching phone. -/
theorem c7_witness :
    change_contact ["Ann", "1234567890", "0987654321"]
        [⟨"Ann", ["1234567890"], none⟩]
      = ([⟨"Ann", ["0987654321"], none⟩], .ok "Contact updated.") :=
  ((c7_change_contact [⟨"Ann", ["1234567890"], none⟩] "Ann" "1234567890"
      "0987654321").1 ⟨"Ann", ["1234567890"], none⟩ rfl).2.2.2
    (List.mem_singleton.mpr rfl) rfl

/-- Well-formedness of one record's phones: every stored phone value is a
ten-character digit string (the property `Phone._validate` enforces). -/
def recPhonesOk (r : Record) : Prop :=
  ∀ p ∈ r.phones, strIsdigit p = true ∧ p.length = 10

/-- Store-wide phone invariant. -/
def phoneInv (book : Book) : Prop := ∀ r ∈ book, recPhonesOk r

lemma phone_construct_ok (p q : String) (h : Phone.construct p = .ok q) :
    q = p ∧ strIsdigit p = true ∧ p.length = 10 := by
  unfold Phone.construct at h
  by_cases hc : (!strIsdigit p || decide (p.length ≠ 10)) = true
  · rw [if_pos hc] at h
    cases h
  · rw [if_neg hc] at h
    cases h
    simp only [Bool.or_eq_true, Bool.not_eq_eq_eq_not, Bool.not_true,
      decide_eq_true_eq, not_or, Bool.not_eq_false] at hc
    exact ⟨rfl, hc.1, by omega⟩

lemma recPhonesOk_add_phone (rec rec2 : Record) (p : String)
    (h : rec.add_phone p = .ok rec2) (hrec : recPhonesOk rec) :
    recPhonesOk rec2 := by
  unfold Record.add_phone at h
  cases hc : Phone.construct p with
  | error e => rw [hc] at h; cases h
  | ok q =>
    rw [hc] at h
    cases h
    intro x hx
    simp only [List.mem_append, List.mem_singleton] at hx
    rcases hx with hx | hx
    · exact hrec x hx
    · obtain ⟨hq, h1, h2⟩ := phone_construct_ok p q hc
      subst hx
      subst hq
      exact ⟨h1, h2⟩

lemma mem_replaceFirst (ps : List String) (old new q : String)
    (h : q ∈ replaceFirst ps old new) : q = new ∨ q ∈ ps := by
  induction ps with
  | nil => simp [replaceFirst] at h
  | cons p rest ih =>
    unfold replaceFirst at h
    by_cases hp : p = old
    · rw [if_pos hp] at h
      rcases List.mem_cons.mp h with h' | h'
      · exact Or.inl h'
      · exact Or.inr (List.mem_cons_of_mem p h')
    · rw [if_neg hp] at h
      rcases List.mem_cons.mp h with h' | h'
      · exact Or.inr (h' ▸ List.mem_cons_self p rest)
      · rcases ih h' with h'' | h''
        · exact Or.inl h''
        · exact Or.inr (List.mem_cons_of_mem p h'')

lemma recPhonesOk_edit_phone (rec rec2 : Record) (old new : String)
    (h : rec.edit_phone old new = .ok rec2) (hrec : recPhonesOk rec) :
    recPhonesOk rec2 := by
  unfold Record.edit_phone at h
  cases hf : rec.find_phone old with
  | none => rw [hf] at h; cases h
  | some v =>
    rw [hf] at h
    cases hc : Phone.construct new with
    | error e => rw [hc] at h; cases h
    | ok q =>
      rw [hc] at h
      cases h
      intro x hx
      simp only [] at hx
      rcases mem_replaceFirst rec.phones old q x hx with h' | h'
      · obtain ⟨hq, h1, h2⟩ := phone_construct_ok new q hc
        subst h'
        subst hq
        exact ⟨h1, h2⟩
      · exact hrec x h'

lemma recPhonesOk_add_birthday (rec rec2 : Record) (s : String)
    (h : rec.add_birthday s = .ok rec2) (hrec : recPhonesOk rec) :
    recPhonesOk rec2 := by
  unfold Record.add_birthday at h
  cases hc : Birthday.construct s with
  | error e => rw [hc] at h; cases h
  | ok d =>
    rw [hc] at h
    cases h
    exact hrec

lemma phoneInv_bookModify (book : Book) (n : String) (f : Record → Record)
    (h : phoneInv book) (hf : ∀ r ∈ book, recPhonesOk (f r)) :
    phoneInv (bookModify book n f) := by
  induction book with
  | nil => exact h
  | cons x xs ih =>
    show phoneInv (if x.name = n then f x :: xs else x :: bookModify xs n f)
    by_cases hx : x.name = n
    · rw [if_pos hx]
      intro r hr
      rcases List.mem_cons.mp hr with h' | h'
      · exact h' ▸ hf x (List.mem_cons_self x xs)
      · exact h r (List.mem_cons_of_mem x h')
    · rw [if_neg hx]
      intro r hr
      rcases List.mem_cons.mp hr with h' | h'
      · exact h' ▸ h x (List.mem_cons_self x xs)
      · exact ih (fun r' hr' => h r' (List.mem_cons_of_mem x hr'))
          (fun r' hr' => hf r' (List.mem_cons_of_mem x hr')) r h'

lemma phoneInv_replaceRecord (book : Book) (r : Record)
    (h : phoneInv book) (hr : recPhonesOk r) :
    phoneInv (replaceRecord book r) := by
  induction book with
  | nil => exact h
  | cons x xs ih =>
    show phoneInv (if x.name = r.name then r :: xs else x :: replaceRecord xs r)
    by_cases hx : x.name = r.name
    · rw [if_pos hx]
      intro q hq
      rcases List.mem_cons.mp hq with h' | h'
      · exact h' ▸ hr
      · exact h q (List.mem_cons_of_mem x h')
    · rw [if_neg hx]
      intro q hq
      rcases List.mem_cons.mp hq with h' | h'
      · exact h' ▸ h x (List.mem_cons_self x xs)
      · exact ih (fun r' hr' => h r' (List.mem_cons_of_mem x hr')) q h'

lemma phoneInv_addRecord (book : Book) (r : Record)
    (h : phoneInv book) (hr : recPhonesOk r) :
    phoneInv (addRecord book r) := by
  unfold addRecord
  by_cases hany : book.any (fun x => x.name = r.name) = true
  · rw [if_pos hany]
    exact phoneInv_replaceRecord book r h hr
  · rw [if_neg hany]
    intro q hq
    rcases List.mem_append.mp hq with h' | h'
    · exact h q h'
    · rcases List.mem_singleton.mp h' with h''
      exact h'' ▸ hr

lemma phoneInv_bookDelete (book : Book) (n : String) (h : phoneInv book) :
    phoneInv (bookDelete book n) := by
  induction book with
  | nil => exact h
  | cons x xs ih =>
    show phoneInv (if x.name = n then xs else x :: bookDelete xs n)
    by_cases hx : x.name = n
    · rw [if_pos hx]
      exact fun r hr => h r (List.mem_cons_of_mem x hr)
    · rw [if_neg hx]
      intro r hr
      rcases List.mem_cons.mp hr with h' | h'
      · exact h' ▸ h x (List.mem_cons_self x xs)
      · exact ih (fun r' hr' => h r' (List.mem_cons_of_mem x hr')) r h'

lemma recPhonesOk_of_find (book : Book) (n : String) (rec : Record)
    (h : phoneInv book) (hf : bookFind book n = some rec) : recPhonesOk rec :=
  h rec (List.mem_of_find?_eq_some hf)

lemma recPhonesOk_fresh (name : String) : recPhonesOk ⟨name, [], none⟩ := by
  intro p hp
  simp at hp

lemma inv_add_contact (args : List String) (book : Book) (h : phoneInv book) :
    phoneInv (add_contact args book).1 := by
  unfold add_contact
  rcases args with _ | ⟨name, _ | ⟨phone, tail⟩⟩
  · exact h
  · exact h
  · dsimp only
    cases hf : bookFind book name with
    | some rec =>
      dsimp only
      by_cases hp : phone ≠ ""
      · rw [if_pos hp]
        cases ha : rec.add_phone phone with
        | ok rec2 =>
          dsimp only
          exact phoneInv_bookModify book name _ h (fun r _ =>
            recPhonesOk_add_phone rec rec2 phone ha
              (recPhonesOk_of_find book name rec h hf))
        | error e => exact h
      · rw [if_neg hp]
        exact h
    | none =>
      dsimp only
      by_cases hp : phone ≠ ""
      · rw [if_pos hp]
        cases ha : Record.add_phone ⟨name, [], none⟩ phone with
        | ok rec2 =>
          dsimp only
          exact phoneInv_bookModify _ name _
            (phoneInv_addRecord book _ h (recPhonesOk_fresh name))
            (fun r _ => recPhonesOk_add_phone _ rec2 phone ha (recPhonesOk_fresh name))
        | error e =>
          dsimp only
          exact phoneInv_addRecord book _ h (recPhonesOk_fresh name)
      · rw [if_neg hp]
        exact phoneInv_addRecord book _ h (recPhonesOk_fresh name)

lemma inv_change_contact (args : List String) (book : Book) (h : phoneInv book) :
    phoneInv (change_contact args book).1 := by
  unfold change_contact
  rcases args with _ | ⟨a, _ | ⟨b, _ | ⟨c, _ | ⟨d, t⟩⟩⟩⟩
  · exact h
  · exact h
  · dsimp only
    cases hf : bookFind book a with
    | none => exact h
    | some rec =>
      dsimp only
      cases hp : rec.phones with
      | nil =>
        dsimp only
        cases ha : rec.add_phone b with
        | ok rec2 =>
          dsimp only
          exact phoneInv_bookModify book a _ h (fun r _ =>
            recPhonesOk_add_phone rec rec2 b ha
              (recPhonesOk_of_find book a rec h hf))
        | error e => exact h
      | cons p0 t0 =>
        cases t0 with
        | nil =>
          dsimp only
          cases he : rec.edit_phone p0 b with
          | ok rec2 =>
            dsimp only
            exact phoneInv_bookModify book a _ h (fun r _ =>
              recPhonesOk_edit_phone rec rec2 p0 b he
                (recPhonesOk_of_find book a rec h hf))
          | error e => exact h
        | cons q0 t1 => exact h
  · dsimp only
    cases hf : bookFind book a with
    | none => exact h
    | some rec =>
      dsimp only
      cases he : rec.edit_phone b c with
      | ok rec2 =>
        dsimp only
        exact phoneInv_bookModify book a _ h (fun r _ =>
          recPhonesOk_edit_phone rec rec2 b c he
            (recPhonesOk_of_find book a rec h hf))
      | error e => exact h
  · exact h

lemma show_phone_book (args : List String) (book : Book) :
    (show_phone args book).1 = book := by
  unfold show_phone
  rcases args with _ | ⟨name, rest⟩
  · rfl
  · dsimp only
    cases hf : bookFind book name <;> rfl

lemma show_all_book (args : List String) (book : Book) :
    (show_all args book).1 = book := by
  unfold show_all
  by_cases hb : book.isEmpty
  · rw [if_pos hb]
  · rw [if_neg hb]

lemma show_birthday_book (args : List String) (book : Book) :
    (show_birthday args book).1 = book := by
  unfold show_birthday
  rcases args with _ | ⟨name, rest⟩
  · rfl
  · dsimp only
    cases hf : bookFind book name with
    | none => rfl
    | some rec =>
      dsimp only
      cases rec.birthday <;> rfl

lemma birthdays_book (today : PyDate) (args : List String) (book : Book) :
    (birthdays today args book).1 = book := by
  unfold birthdays
  cases hg : getUpcomingBirthdays today book with
  | error e => rfl
  | ok l =>
    cases l with
    | nil => rfl
    | cons p ps => rfl

lemma inv_delete_contact (args : List String) (book : Book) (h : phoneInv book) :
    phoneInv (delete_contact args book).1 := by
  unfold delete_contact
  rcases args with _ | ⟨name, rest⟩
  · exact h
  · dsimp only
    cases hf : bookFind book name with
    | none => exact h
    | some rec => exact phoneInv_bookDelete book name h

lemma inv_add_birthday (args : List String) (book : Book) (h : phoneInv book) :
    phoneInv (add_birthday args book).1 := by
  unfold add_birthday
  rcases args with _ | ⟨name, _ | ⟨bd, tail⟩⟩
  · exact h
  · exact h
  · dsimp only
    cases hf : bookFind book name with
    | some rec =>
      dsimp only
      cases ha : rec.add_birthday bd with
      | ok rec2 =>
        dsimp only
        exact phoneInv_bookModify book name _ h (fun r _ =>
          recPhonesOk_add_birthday rec rec2 bd ha
            (recPhonesOk_of_find book name rec h hf))
      | error e => exact h
    | none =>
      dsimp only
      cases ha : Record.add_birthday ⟨name, [], none⟩ bd with
      | ok rec2 =>
        dsimp only
        exact phoneInv_bookModify _ name _
          (phoneInv_addRecord book _ h (recPhonesOk_fresh name))
          (fun r _ => recPhonesOk_add_birthday _ rec2 bd ha (recPhonesOk_fresh name))
      | error e =>
        dsimp only
        exact phoneInv_addRecord book _ h (recPhonesOk_fresh name)

/-- C9 claim: every command handler preserves the invariant that each phone
value stored anywhere in the book is a ten-character digit string
(`add_phone` and `edit_phone` validate through `Phone` construction, and no
other operation writes a phone value). -/
theorem c9_phone_invariant (args : List String) (book : Book) (today : PyDate)
    (h : phoneInv book) :
    phoneInv (add_contact args book).1 ∧
    phoneInv (change_contact args book).1 ∧
    phoneInv (show_phone args book).1 ∧
    phoneInv (show_all args book).1 ∧
    phoneInv (add_birthday args book).1 ∧
    phoneInv (show_birthday args book).1 ∧
    phoneInv (delete_contact args book).1 ∧
    phoneInv (birthdays today args book).1 :=
  ⟨inv_add_contact args book h,
   inv_change_contact args book h,
   (show_phone_book args book).symm ▸ h,
   (show_all_book args book).symm ▸ h,
   inv_add_birthday args book h,
   (show_birthday_book args book).symm ▸ h,
   inv_delete_contact args book h,
   (birthdays_book today args book).symm ▸ h⟩

/-- C9 witness: the invariant is preserved by a concrete `add` on a store
already holding one valid record. -/
theorem c9_witness :
    phoneInv (add_contact ["Bob", "5550001111"]
      [⟨"Ann", ["1234567890"], none⟩]).1 :=
  (c9_phone_invariant ["Bob", "5550001111"] [⟨"Ann", ["1234567890"], none⟩]
    ⟨2024, 6, 10⟩ (by
      intro r hr p hp
      simp only [List.mem_singleton] at hr
      subst hr
      simp only [List.mem_singleton] at hp
      subst hp
      exact ⟨by decide, by decide⟩)).1

lemma replaceYear_error_msg (d : PyDate) (y : Nat) (e : String)
    (hy : 1 ≤ y ∧ y ≤ 9999) (hm : 1 ≤ d.month ∧ d.month ≤ 12)
    (h : replaceYear d y = .error e) : e = "day is out of range for month" := by
  unfold replaceYear at h
  rw [if_neg (by omega)] at h
  rw [if_neg (by omega)] at h
  by_cases hd : d.day < 1 ∨ daysInMonth y d.month < d.day
  · rw [if_pos hd] at h
    cases h
    rfl
  · rw [if_neg hd] at h
    cases h

lemma upcomingEntry_error_msg (today : PyDate) (r : Record) (e : String)
    (hy1 : 1 ≤ today.year) (hy2 : today.year + 1 ≤ 9999)
    (hm : ∀ d : PyDate, r.birthday = some d → 1 ≤ d.month ∧ d.month ≤ 12)
    (h : upcomingEntry today r = .error e) : e = "day is out of range for month" := by
  unfold upcomingEntry at h
  cases hb : r.birthday with
  | none => rw [hb] at h; cases h
  | some b =>
    rw [hb] at h
    dsimp only at h
    have hmb := hm b hb
    cases hc : computeCandidate today b with
    | ok cand =>
      rw [hc] at h
      dsimp only at h
      by_cases hw : 0 ≤ dateSub cand today ∧ dateSub cand today < 7
      · rw [if_pos hw] at h
        cases h
      · rw [if_neg hw] at h
        cases h
    | error e' =>
      rw [hc] at h
      cases h
      unfold computeCandidate at hc
      cases h1 : replaceYear b today.year with
      | error e1 =>
        rw [h1] at hc
        cases hc
        exact replaceYear_error_msg b today.year e ⟨hy1, by omega⟩ hmb h1
      | ok t =>
        rw [h1] at hc
        dsimp only at hc
        by_cases hlt : dateLt t today = true
        · rw [if_pos hlt] at hc
          have htm : t.month = b.month := by
            unfold replaceYear at h1
            by_cases hc1 : today.year < 1 ∨ 9999 < today.year
            · rw [if_pos hc1] at h1; cases h1
            · rw [if_neg hc1] at h1
              by_cases hc2 : b.month < 1 ∨ 12 < b.month
              · rw [if_pos hc2] at h1; cases h1
              · rw [if_neg hc2] at h1
                by_cases hc3 : b.day < 1 ∨ daysInMonth today.year b.month < b.day
                · rw [if_pos hc3] at h1; cases h1
                · rw [if_neg hc3] at h1
                  cases h1
                  rfl
          exact replaceYear_error_msg t (today.year + 1) e ⟨by omega, hy2⟩
            (htm ▸ hmb) hc
        · rw [if_neg hlt] at hc
          cases hc

lemma upcomingEntry_feb29 (today : PyDate) (r : Record) (b : PyDate)
    (hy1 : 1 ≤ today.year) (hy2 : today.year ≤ 9999)
    (hleap : isLeap today.year = false)
    (hb : r.birthday = some b) (hm : b.month = 2) (hd : b.day = 29) :
    upcomingEntry today r = .error "day is out of range for month" := by
  unfold upcomingEntry
  rw [hb]
  dsimp only
  have hrep : replaceYear b today.year = .error "day is out of range for month" := by
    unfold replaceYear
    rw [if_neg (by omega), if_neg (by omega), if_pos]
    rw [hm, hd]
    unfold daysInMonth
    rw [if_pos rfl, if_neg (by rw [hleap]; simp)]
    omega
  unfold computeCandidate
  rw [hrep]

lemma getUpcoming_error_of_feb29 (today : PyDate) (book : Book)
    (rec : Record) (b : PyDate)
    (hy1 : 1 ≤ today.year) (hy2 : today.year + 1 ≤ 9999)
    (hleap : isLeap today.year = false)
    (hmonth : ∀ r ∈ book, ∀ d : PyDate, r.birthday = some d →
      1 ≤ d.month ∧ d.month ≤ 12)
    (hmem : rec ∈ book) (hb : rec.birthday = some b)
    (hm : b.month = 2) (hd : b.day = 29) :
    getUpcomingBirthdays today book = .error "day is out of range for month" := by
  induction book with
  | nil => simp at hmem
  | cons r rs ih =>
    unfold getUpcomingBirthdays
    cases he : upcomingEntry today r with
    | error e =>
      rw [upcomingEntry_error_msg today r e hy1 hy2
        (hmonth r (List.mem_cons_self r rs)) he]
    | ok o =>
      have hrec : rec ∈ rs := by
        rcases List.mem_cons.mp hmem with h' | h'
        · subst h'
          rw [upcomingEntry_feb29 today rec b hy1 (by omega) hleap hb hm hd] at he
          cases he
        · exact h'
      have hrs := ih (fun r' hr' => hmonth r' (List.mem_cons_of_mem r hr')) hrec
      cases o with
      | none => exact hrs
      | some p =>
        rw [hrs]

/-- C10 claim: when some stored record has a February 29 birthday and the
current year is not a leap year, rebasing that birthday raises the date
error, so the wrapped `birthdays` command returns the raised error's message
instead of any schedule, with the store untouched. -/
theorem c10_feb29_aborts (today : PyDate) (book : Book) (rec : Record)
    (b : PyDate) (args : List String)
    (hy1 : 1 ≤ today.year) (hy2 : today.year + 1 ≤ 9999)
    (hleap : isLeap today.year = false)
    (hmonth : ∀ r ∈ book, ∀ d : PyDate, r.birthday = some d →
      1 ≤ d.month ∧ d.month ≤ 12)
    (hmem : rec ∈ book) (hb : rec.birthday = some b)
    (hm : b.month = 2) (hd : b.day = 29) :
    runHandler (birthdays today) args book = (book, "day is out of range for month") := by
  unfold runHandler birthdays
  rw [getUpcoming_error_of_feb29 today book rec b hy1 hy2 hleap hmonth hmem hb hm hd]
  dsimp only
  rw [show pyErrMessage (.valueError "day is out of range for month")
      = "day is out of range for month" from by decide]

/-- C10 witness: with one Feb-29 record and one ordinary record in 2023 (not
a leap year), the command returns the raised message and lists nothing. -/
theorem c10_witness :
    runHandler (birthdays ⟨2023, 2, 20⟩) []
        [⟨"Ann", [], some ⟨2020, 2, 29⟩⟩, ⟨"Bob", [], some ⟨1990, 3, 2⟩⟩]
      = ([⟨"Ann", [], some ⟨2020, 2, 29⟩⟩, ⟨"Bob", [], some ⟨1990, 3, 2⟩⟩],
         "day is out of range for month") :=
  c10_feb29_aborts ⟨2023, 2, 20⟩
    [⟨"Ann", [], some ⟨2020, 2, 29⟩⟩, ⟨"Bob", [], some ⟨1990, 3, 2⟩⟩]
    ⟨"Ann", [], some ⟨2020, 2, 29⟩⟩ ⟨2020, 2, 29⟩ []
    (by decide) (by decide) (by decide)
    (by
      intro r hr d hdd
      simp only [List.mem_cons, List.mem_singleton, List.not_mem_nil, or_false] at hr
      rcases hr with hr | hr <;>
        (subst hr
         simp only [Option.some.injEq] at hdd
         subst hdd
         exact ⟨by decide, by decide⟩))
    (by simp) rfl rfl rfl

lemma upcomingEntry_name (today : PyDate) (r : Record) (p : String × String)
    (h : upcomingEntry today r = .ok (some p)) : p.1 = r.name := by
  unfold upcomingEntry at h
  cases hb : r.birthday with
  | none => rw [hb] at h; cases h
  | some b =>
    rw [hb] at h
    dsimp only at h
    cases hc : computeCandidate today b with
    | error e => rw [hc] at h; cases h
    | ok cand =>
      rw [hc] at h
      dsimp only at h
      by_cases hw : 0 ≤ dateSub cand today ∧ dateSub cand today < 7
      · rw [if_pos hw] at h
        cases h
        rfl
      · rw [if_neg hw] at h
        cases h

lemma getUpcoming_mem_of_entry (today : PyDate) (book : Book)
    (l : List (String × String)) (r : Record) (p : String × String)
    (hg : getUpcomingBirthdays today book = .ok l) (hr : r ∈ book)
    (he : upcomingEntry today r = .ok (some p)) : p ∈ l := by
  induction book generalizing l with
  | nil => simp at hr
  | cons x xs ih =>
    unfold getUpcomingBirthdays at hg
    cases hx : upcomingEntry today x with
    | error e => rw [hx] at hg; cases hg
    | ok o =>
      rw [hx] at hg
      cases o with
      | none =>
        dsimp only at hg
        have hrx : r ∈ xs := by
          rcases List.mem_cons.mp hr with h' | h'
          · subst h'
            rw [hx] at he
            cases he
          · exact h'
        exact ih l hg hrx
      | some q =>
        dsimp only at hg
        cases hgr : getUpcomingBirthdays today xs with
        | error e => rw [hgr] at hg; cases hg
        | ok l' =>
          rw [hgr] at hg
          dsimp only at hg
          cases hg
          rcases List.mem_cons.mp hr with h' | h'
          · subst h'
            rw [hx] at he
            cases he
            exact List.mem_cons_self _ _
          · exact List.mem_cons_of_mem q (ih l' hgr h')

lemma getUpcoming_entry_of_mem (today : PyDate) (book : Book)
    (l : List (String × String)) (p : String × String)
    (hg : getUpcomingBirthdays today book = .ok l) (hp : p ∈ l) :
    ∃ r ∈ book, upcomingEntry today r = .ok (some p) := by
  induction book generalizing l with
  | nil =>
    cases hg
    simp at hp
  | cons x xs ih =>
    unfold getUpcomingBirthdays at hg
    cases hx : upcomingEntry today x with
    | error e => rw [hx] at hg; cases hg
    | ok o =>
      rw [hx] at hg
      cases o with
      | none =>
        dsimp only at hg
        obtain ⟨r, hr, he⟩ := ih l hg hp
        exact ⟨r, List.mem_cons_of_mem x hr, he⟩
      | some q =>
        dsimp only at hg
        cases hgr : getUpcomingBirthdays today xs with
        | error e => rw [hgr] at hg; cases hg
        | ok l' =>
          rw [hgr] at hg
          dsimp only at hg
          cases hg
          rcases List.mem_cons.mp hp with h' | h'
          · subst h'
            exact ⟨x, List.mem_cons_self x xs, hx⟩
          · obtain ⟨r, hr, he⟩ := ih l' hgr h'
            exact ⟨r, List.mem_cons_of_mem x hr, he⟩

lemma record_unique (book : Book) (h : namesNodup book) (r1 r2 : Record)
    (h1 : r1 ∈ book) (h2 : r2 ∈ book) (hname : r1.name = r2.name) : r1 = r2 := by
  induction book with
  | nil => simp at h1
  | cons x xs ih =>
    have hx : x.name ∉ xs.map Record.name := by
      have := h
      unfold namesNodup bookNames at this
      rw [List.map_cons, List.nodup_cons] at this
      exact this.1
    have hxs : namesNodup xs := by
      have := h
      unfold namesNodup bookNames at this
      rw [List.map_cons, List.nodup_cons] at this
      exact this.2
    rcases List.mem_cons.mp h1 with e1 | e1 <;> rcases List.mem_cons.mp h2 with e2 | e2
    · rw [e1, e2]
    · exfalso
      subst e1
      exact hx (List.mem_map.mpr ⟨r2, e2, hname.symm⟩)
    · exfalso
      subst e2
      exact hx (List.mem_map.mpr ⟨r1, e1, hname⟩)
    · exact ih hxs e1 e2

/-- C1 claim: for a stored record with a birthday, given the rebased
candidate date (this year, or next year when already passed), the record is
listed by `get_upcoming_birthdays` exactly when `0 ≤ (candidate - today).days
< 7`, and when listed its congratulation date is the weekend-shifted
candidate rendered as `YYYY-MM-DD` — the shift is applied only after the
window test, so a weekend birthday at the edge of the window stays listed. -/
theorem c1_upcoming_window (today : PyDate) (book : Book) (rec : Record)
    (b cand : PyDate) (l : List (String × String))
    (hnd : namesNodup book) (hmem : rec ∈ book) (hb : rec.birthday = some b)
    (hg : getUpcomingBirthdays today book = .ok l)
    (hc : computeCandidate today b = .ok cand) :
    ((∃ ds, (rec.name, ds) ∈ l) ↔
      (0 ≤ dateSub cand today ∧ dateSub cand today < 7)) ∧
    (0 ≤ dateSub cand today ∧ dateSub cand today < 7 →
      (rec.name, formatYMD (weekendShift cand)) ∈ l) := by
  have hpos : ∀ hw : 0 ≤ dateSub cand today ∧ dateSub cand today < 7,
      upcomingEntry today rec = .ok (some (rec.name, formatYMD (weekendShift cand))) := by
    intro hw
    unfold upcomingEntry
    rw [hb]
    dsimp only
    rw [hc]
    dsimp only
    rw [if_pos hw]
  have hneg : ¬(0 ≤ dateSub cand today ∧ dateSub cand today < 7) →
      upcomingEntry today rec = .ok none := by
    intro hw
    unfold upcomingEntry
    rw [hb]
    dsimp only
    rw [hc]
    dsimp only
    rw [if_neg hw]
  have hmemb : ∀ hw : 0 ≤ dateSub cand today ∧ dateSub cand today < 7,
      (rec.name, formatYMD (weekendShift cand)) ∈ l := fun hw =>
    getUpcoming_mem_of_entry today book l rec _ hg hmem (hpos hw)
  refine ⟨⟨?_, fun hw => ⟨formatYMD (weekendShift cand), hmemb hw⟩⟩, hmemb⟩
  intro ⟨ds, hds⟩
  by_contra hw
  obtain ⟨r, hr, he⟩ := getUpcoming_entry_of_mem today book l (rec.name, ds) hg hds
  have hname : r.name = rec.name :=
    (upcomingEntry_name today r (rec.name, ds) he).symm
  have : r = rec := record_unique book hnd r rec hr hmem hname
  subst this
  rw [hneg hw] at he
  cases he

/-- C1 witness: the spec's Sam scenario — today 2024-06-10, birthday
15.06.1990 (a Saturday five days ahead): included, with congratulation date
shifted to Monday 2024-06-17. -/
theorem c1_witness :
    ("Sam", "2024-06-17") ∈ ([("Sam", "2024-06-17")] : List (String × String)) :=
  (c1_upcoming_window ⟨2024, 6, 10⟩ [⟨"Sam", [], some ⟨1990, 6, 15⟩⟩]
    ⟨"Sam", [], some ⟨1990, 6, 15⟩⟩ ⟨1990, 6, 15⟩ ⟨2024, 6, 15⟩
    [("Sam", "2024-06-17")]
    (by simp [namesNodup, bookNames]) (by simp) rfl rfl rfl).2 (by decide)

lemma digit_bounds (c : Char) (h : isAsciiDigit c = true) :
    48 ≤ c.toNat ∧ c.toNat ≤ 57 := by
  unfold isAsciiDigit at h
  simp only [Bool.and_eq_true, decide_eq_true_eq] at h
  exact h

lemma digitVal_le_nine (c : Char) (h : isAsciiDigit c = true) : digitVal c ≤ 9 := by
  obtain ⟨h1, h2⟩ := digit_bounds c h
  unfold digitVal
  omega

lemma digitChar_digitVal (c : Char) (h : isAsciiDigit c = true) :
    digitChar (digitVal c) = c := by
  obtain ⟨h1, _⟩ := digit_bounds c h
  unfold digitChar digitVal
  rw [show 48 + (c.toNat - 48) = c.toNat by omega]
  exact Char.ofNat_toNat c

lemma daysInMonth_le_31 (y m : Nat) : daysInMonth y m ≤ 31 := by
  unfold daysInMonth
  split
  · split <;> omega
  · split
    · omega
    · split <;> omega

lemma validDate_bounds (y m d : Nat) (h : validDate y m d = true) :
    1 ≤ y ∧ y ≤ 9999 ∧ 1 ≤ m ∧ m ≤ 12 ∧ 1 ≤ d ∧ d ≤ daysInMonth y m := by
  unfold validDate at h
  simp only [Bool.and_eq_true, decide_eq_true_eq] at h
  exact ⟨h.1.1.1.1.1, h.1.1.1.1.2, h.1.1.1.2, h.1.1.2, h.1.2, h.2⟩

lemma pad2_digits (a b : Char) (ha : isAsciiDigit a = true)
    (hb : isAsciiDigit b = true) :
    pad2 (10 * digitVal a + digitVal b) = [a, b] := by
  have h1 : digitVal a ≤ 9 := digitVal_le_nine a ha
  have h2 : digitVal b ≤ 9 := digitVal_le_nine b hb
  unfold pad2
  rw [show (10 * digitVal a + digitVal b) / 10 = digitVal a by omega,
    show (10 * digitVal a + digitVal b) % 10 = digitVal b by omega,
    digitChar_digitVal a ha, digitChar_digitVal b hb]

lemma pad4_digits (a b c d : Char) (ha : isAsciiDigit a = true)
    (hb : isAsciiDigit b = true) (hc : isAsciiDigit c = true)
    (hd : isAsciiDigit d = true) :
    pad4 (1000 * digitVal a + 100 * digitVal b + 10 * digitVal c + digitVal d)
      = [a, b, c, d] := by
  have h1 : digitVal a ≤ 9 := digitVal_le_nine a ha
  have h2 : digitVal b ≤ 9 := digitVal_le_nine b hb
  have h3 : digitVal c ≤ 9 := digitVal_le_nine c hc
  have h4 : digitVal d ≤ 9 := digitVal_le_nine d hd
  unfold pad4
  rw [show (1000 * digitVal a + 100 * digitVal b + 10 * digitVal c + digitVal d) / 1000
        = digitVal a by omega,
    show (1000 * digitVal a + 100 * digitVal b + 10 * digitVal c + digitVal d) / 100 % 10
        = digitVal b by omega,
    show (1000 * digitVal a + 100 * digitVal b + 10 * digitVal c + digitVal d) / 10 % 10
        = digitVal c by omega,
    show (1000 * digitVal a + 100 * digitVal b + 10 * digitVal c + digitVal d) % 10
        = digitVal d by omega,
    digitChar_digitVal a ha, digitChar_digitVal b hb,
    digitChar_digitVal c hc, digitChar_digitVal d hd]

lemma parse2or1_two (bound : Nat) (a b : Char) (rest : List Char)
    (ha : isAsciiDigit a = true) (hb : isAsciiDigit b = true)
    (h1 : 1 ≤ 10 * digitVal a + digitVal b)
    (h2 : 10 * digitVal a + digitVal b ≤ bound) :
    parse2or1 bound (a :: b :: rest)
      = some (10 * digitVal a + digitVal b, rest) := by
  unfold parse2or1
  dsimp only
  rw [if_pos (show (isAsciiDigit a && isAsciiDigit b &&
      decide (1 ≤ 10 * digitVal a + digitVal b) &&
      decide (10 * digitVal a + digitVal b ≤ bound)) = true by
    simp [ha, hb, h1, h2])]

lemma parse4_digits (a b c d : Char) (ha : isAsciiDigit a = true)
    (hb : isAsciiDigit b = true) (hc : isAsciiDigit c = true)
    (hd : isAsciiDigit d = true) :
    parse4 [a, b, c, d]
      = some (1000 * digitVal a + 100 * digitVal b + 10 * digitVal c + digitVal d) := by
  unfold parse4
  dsimp only
  rw [if_pos (show (isAsciiDigit a && isAsciiDigit b && isAsciiDigit c &&
      isAsciiDigit d) = true by simp [ha, hb, hc, hd])]

/-- C3 claim: every string in `DD.MM.YYYY` shape (two digits, dot, two
digits, dot, four digits) denoting a real calendar date parses to exactly
that date and renders back to the identical string (round trip); and every
failing construction fails with precisely the fixed `ValueError` message. -/
theorem c3_birthday_roundtrip :
    (∀ d1 d2 m1 m2 y1 y2 y3 y4 : Char,
      isAsciiDigit d1 = true → isAsciiDigit d2 = true →
      isAsciiDigit m1 = true → isAsciiDigit m2 = true →
      isAsciiDigit y1 = true → isAsciiDigit y2 = true →
      isAsciiDigit y3 = true → isAsciiDigit y4 = true →
      validDate (1000 * digitVal y1 + 100 * digitVal y2 + 10 * digitVal y3 + digitVal y4)
        (10 * digitVal m1 + digitVal m2) (10 * digitVal d1 + digitVal d2) = true →
      Birthday.construct (String.mk [d1, d2, '.', m1, m2, '.', y1, y2, y3, y4])
          = .ok ⟨1000 * digitVal y1 + 100 * digitVal y2 + 10 * digitVal y3 + digitVal y4,
                 10 * digitVal m1 + digitVal m2, 10 * digitVal d1 + digitVal d2⟩ ∧
      Birthday.render ⟨1000 * digitVal y1 + 100 * digitVal y2 + 10 * digitVal y3 + digitVal y4,
                       10 * digitVal m1 + digitVal m2, 10 * digitVal d1 + digitVal d2⟩
          = String.mk [d1, d2, '.', m1, m2, '.', y1, y2, y3, y4]) ∧
    (∀ (s : String) (e : PyErr), Birthday.construct s = .error e →
      e = .valueError "Invalid date format. Use DD.MM.YYYY") := by
  constructor
  · intro d1 d2 m1 m2 y1 y2 y3 y4 hd1 hd2 hm1 hm2 hy1 hy2 hy3 hy4 hv
    obtain ⟨hb1, hb2, hb3, hb4, hb5, hb6⟩ := validDate_bounds _ _ _ hv
    have hdle : 10 * digitVal d1 + digitVal d2 ≤ 31 :=
      le_trans hb6 (daysInMonth_le_31 _ _)
    constructor
    · unfold Birthday.construct
      show (match strptimeDMY [d1, d2, '.', m1, m2, '.', y1, y2, y3, y4] with
        | some d => Except.ok d
        | none => Except.error (PyErr.valueError "Invalid date format. Use DD.MM.YYYY")) = _
      unfold strptimeDMY
      rw [parse2or1_two 31 d1 d2 _ hd1 hd2 hb5 hdle]
      dsimp only
      rw [if_pos rfl]
      rw [parse2or1_two 12 m1 m2 _ hm1 hm2 hb3 hb4]
      dsimp only
      rw [if_pos rfl]
      rw [parse4_digits y1 y2 y3 y4 hy1 hy2 hy3 hy4]
      dsimp only
      rw [if_pos hv]
    · unfold Birthday.render formatDDMMYYYY
      dsimp only
      rw [pad2_digits d1 d2 hd1 hd2, pad2_digits m1 m2 hm1 hm2,
        pad4_digits y1 y2 y3 y4 hy1 hy2 hy3 hy4]
      rfl
  · intro s e h
    unfold Birthday.construct at h
    cases hp : strptimeDMY s.data with
    | some d => rw [hp] at h; cases h
    | none =>
      rw [hp] at h
      cases h
      rfl

/-- C3 witness: the string 15.06.1990 parses to the date (1990, 6, 15) and
renders back to itself, and a malformed string fails with the message. -/
theorem c3_witness :
    (Birthday.construct (String.mk ['1', '5', '.', '0', '6', '.', '1', '9', '9', '0'])
        = .ok ⟨1990, 6, 15⟩ ∧
      Birthday.render ⟨1990, 6, 15⟩
        = String.mk ['1', '5', '.', '0', '6', '.', '1', '9', '9', '0']) ∧
    Birthday.construct "31.02.2024"
      = .error (.valueError "Invalid date format. Use DD.MM.YYYY") := by
  constructor
  · exact c3_birthday_roundtrip.1 '1' '5' '0' '6' '1' '9' '9' '0'
      (by decide) (by decide) (by decide) (by decide) (by decide) (by decide)
      (by decide) (by decide) (by decide)
  · rfl
